import Mathlib

/-!
# Verification of the adaptive image-preprocessing pipeline

A shallow embedding of `backend/service/preprocess_image.py`
(`DocumentAnalyzer`, `DynamicPreprocessor`, `_derive_auto_preprocessing_options`,
`_merge_preprocessing_options`, `_apply_user_overrides`,
`dynamic_preprocess_image`) together with theorems settling the spec claims.

Modelling conventions:
* Python dicts are association lists `List (String × α)` with the usual
  insertion-order semantics: assignment to an existing key replaces the value
  in place, assignment to a fresh key appends at the end (Python 3.7+).
* Pixel-level OpenCV / PIL primitives (Canny, Hough, warpAffine, denoising,
  JPEG encoding, colour conversion, ...) are external library calls, not code
  of this repository.  They are uninterpreted parameters of the pipeline,
  packaged in the structure `CvOps`.  Operations that sit inside a
  `try/except` in the source (or whose exceptions the claims are about) are
  given the type `_ → Except String _`; infrastructure conversions that the
  claims do not concern are total.  The decision logic of the repository
  (thresholds, scoring, priority sorting, the merge, guards, `try` blocks) is
  embedded faithfully.
* Angles, ratios and scores use `ℚ` / `ℤ`.  All values that flow through the
  decision logic are exact in the source (integer thresholds, medians of
  float lists are modelled as rational medians).
-/

/-! ## Python dict on string keys, as an association list -/

/-- Python dict lookup `d.get(k)`: first (and, with unique keys, only)
binding wins. -/
def pyGet {α : Type} : List (String × α) → String → Option α
  | [], _ => none
  | (k', v) :: rest, k => if k' = k then some v else pyGet rest k

/-- Python dict lookup with default, `d.get(k, dflt)`. -/
def pyGetD {α : Type} (d : List (String × α)) (k : String) (dflt : α) : α :=
  (pyGet d k).getD dflt

/-- Python dict assignment `d[k] = v`: replace in place if the key exists,
else append (insertion-order semantics of Python 3.7+). -/
def pySet {α : Type} : List (String × α) → String → α → List (String × α)
  | [], k, v => [(k, v)]
  | (k', v') :: rest, k, v =>
      if k' = k then (k, v) :: rest else (k', v') :: pySet rest k v

/-- Python `m.update(v)`: assign every binding of `v` into `m`, in order. -/
def pyUpdate {α : Type} (m v : List (String × α)) : List (String × α) :=
  v.foldl (fun acc p => pySet acc p.1 p.2) m

/-- The key list of a dict, in insertion order. -/
def keysOf {α : Type} (d : List (String × α)) : List String :=
  d.map Prod.fst

theorem pyGet_pySet_self {α : Type} (d : List (String × α)) (k : String) (v : α) :
    pyGet (pySet d k v) k = some v := by
  induction d with
  | nil => simp [pySet, pyGet]
  | cons hd tl ih =>
      obtain ⟨k', v'⟩ := hd
      by_cases h : k' = k <;> simp [pySet, pyGet, h, ih]

theorem pyGet_pySet_ne {α : Type} (d : List (String × α)) {k k' : String}
    (h : k' ≠ k) (v : α) : pyGet (pySet d k' v) k = pyGet d k := by
  induction d with
  | nil => simp [pySet, pyGet, h]
  | cons hd tl ih =>
      obtain ⟨k₀, v₀⟩ := hd
      by_cases h0 : k₀ = k' <;> by_cases h1 : k₀ = k <;>
        simp_all [pySet, pyGet]

theorem pyGet_pyUpdate_not_mem {α : Type} (v : List (String × α)) (m : List (String × α))
    {j : String} (h : j ∉ keysOf v) : pyGet (pyUpdate m v) j = pyGet m j := by
  induction v generalizing m with
  | nil => rfl
  | cons hd tl ih =>
      obtain ⟨k, x⟩ := hd
      simp only [keysOf, List.map_cons, List.mem_cons, not_or] at h
      have h1 : k ≠ j := fun hkj => h.1 hkj.symm
      have : pyGet (pyUpdate (pySet m k x) tl) j = pyGet (pySet m k x) j :=
        ih (by simpa [keysOf] using h.2) (m := pySet m k x)
      simpa [pyUpdate, pyGet_pySet_ne _ h1] using this

theorem pyGet_pyUpdate_of_mem {α : Type} (v : List (String × α)) (m : List (String × α))
    {j : String} {x : α} (hnd : (keysOf v).Nodup) (hmem : (j, x) ∈ v) :
    pyGet (pyUpdate m v) j = some x := by
  induction v generalizing m with
  | nil => cases hmem
  | cons hd tl ih =>
      obtain ⟨k, y⟩ := hd
      simp only [keysOf, List.map_cons, List.nodup_cons] at hnd
      rcases List.mem_cons.mp hmem with heq | htl
      · have hk : j = k := congrArg Prod.fst heq
        have hy : x = y := congrArg Prod.snd heq
        subst hk; subst hy
        have hnot : j ∉ keysOf tl := by simpa [keysOf] using hnd.1
        have := pyGet_pyUpdate_not_mem tl (m := pySet m j x) hnot
        simpa [pyUpdate, pyGet_pySet_self] using this
      · exact (ih hnd.2 htl (m := pySet m k y))

/-! ## Discrete classification levels -/

/-- Three-step level used for noise, contrast and skew classifications. -/
inductive Level
  | low
  | medium
  | high
deriving DecidableEq, Fintype

/-- Brightness classification of `DocumentAnalyzer._assess_brightness`. -/
inductive BrightLevel
  | very_dark
  | dark
  | normal
  | bright
  | overexposed
deriving DecidableEq, Fintype

/-- Blur classification of `DocumentAnalyzer._assess_blur`. -/
inductive BlurLevel
  | sharp
  | moderate
  | blurry
deriving DecidableEq, Fintype

/-- Document type of `DocumentAnalyzer._classify_document_type`. -/
inductive DocType
  | text_heavy
  | mixed_content
  | simple_text
deriving DecidableEq, Fintype

def Level.toStr : Level → String
  | .low => "low"
  | .medium => "medium"
  | .high => "high"

def BrightLevel.toStr : BrightLevel → String
  | .very_dark => "very_dark"
  | .dark => "dark"
  | .normal => "normal"
  | .bright => "bright"
  | .overexposed => "overexposed"

def BlurLevel.toStr : BlurLevel → String
  | .sharp => "sharp"
  | .moderate => "moderate"
  | .blurry => "blurry"

def DocType.toStr : DocType → String
  | .text_heavy => "text_heavy"
  | .mixed_content => "mixed_content"
  | .simple_text => "simple_text"

/-! ## Skew detection (`DocumentAnalyzer._detect_skew`)

The two candidate-angle estimators (probabilistic Hough lines on Canny
edges, and min-area rectangles of large contours) are pixel-level library
computations; the decision logic of `_detect_skew` operates on the pooled
candidate list `angles`, which we take as the input of the embedding. -/

/-- Model of `np.median` on a list of rationals: sort ascending; middle element for
odd length, mean of the two middle elements for even length. -/
def npMedian (l : List ℚ) : ℚ :=
  let s := List.insertionSort (· ≤ ·) l
  if s.length % 2 = 1 then s.getD (s.length / 2) 0
  else (s.getD (s.length / 2 - 1) 0 + s.getD (s.length / 2) 0) / 2

structure SkewResult where
  angle : ℚ
  level : Level
  confidence : ℚ
deriving DecidableEq

/-- Decision logic of `DocumentAnalyzer._detect_skew` on the pooled
candidate angle list:
`skew_angle = np.median(angles) if angles else 0`, level thresholds on the
absolute angle, and `confidence = len(angles) / 10.0 if angles else 0`. -/
def detect_skew_from_candidates (angles : List ℚ) : SkewResult :=
  let skew_angle : ℚ := if angles = [] then 0 else npMedian angles
  let abs_angle := |skew_angle|
  { angle := skew_angle
    level := if abs_angle > 5 then .high else if abs_angle > 1 then .medium else .low
    confidence := if angles = [] then 0 else (angles.length : ℚ) / 10 }

/-! ## Quality score (`DocumentAnalyzer._calculate_quality_score`) -/

/-- Source `DocumentAnalyzer._calculate_quality_score`: base 50 plus the
level-indexed bonuses of the source's dict literals, clamped to [0, 100].
Every level that can occur is a key of the corresponding dict, so the
`.get(…, 0)` defaults are never taken. -/
def calculate_quality_score (contrast : Level) (brightLv : BrightLevel)
    (noise : Level) (blur : BlurLevel) (skew : Level) : ℤ :=
  let score : ℤ := 50
  let score := score + (match contrast with | .high => 25 | .medium => 15 | .low => 0)
  let score := score +
    (match brightLv with
     | .normal => 20 | .bright => 15 | .dark => 10 | .very_dark => 0 | .overexposed => 5)
  let score := score + (match noise with | .low => 0 | .medium => -5 | .high => -15)
  let score := score + (match blur with | .sharp => 5 | .moderate => 0 | .blurry => -10)
  let score := score + (match skew with | .low => 0 | .medium => -2 | .high => -5)
  max 0 (min 100 score)

/-! ## Recommendation set (`DocumentAnalyzer._generate_recommendations`)

The recommendations value is a Python dict whose values are either nested
dicts (the five operators) or a string (`threshold_method`).  Nested dict
values are bools, ints or the rational `0.5`. -/

/-- A value inside one operator's recommendation dict. -/
inductive RVal
  | rb : Bool → RVal
  | ri : ℤ → RVal
  | rq : ℚ → RVal
deriving DecidableEq

/-- A value of the recommendations dict: an operator config dict or the
`threshold_method` string. -/
inductive RecEntry
  | rdict : List (String × RVal) → RecEntry
  | rstr : String → RecEntry
deriving DecidableEq

/-- Python truthiness of an `RVal` (`config.get('enabled', False)` is used
as a condition). -/
def RVal.truthy : RVal → Bool
  | .rb b => b
  | .ri n => n ≠ 0
  | .rq q => q ≠ 0

/-- Source `isinstance(config, dict) and config.get('enabled', False)`. -/
def isEnabledDict : RecEntry → Bool
  | .rdict d => ((pyGet d "enabled").map RVal.truthy).getD false
  | .rstr _ => false

/-- Source `config.get('priority', 0)`; every priority stored by this program is an
`RVal.ri`. -/
def priorityOf (d : List (String × RVal)) : ℤ :=
  match pyGet d "priority" with
  | some (.ri n) => n
  | _ => 0

/-- Source `DocumentAnalyzer._generate_recommendations`: the initial all-disabled
dict literal followed by the conditional reassignments of the source, built
with Python dict-assignment semantics. -/
def generate_recommendations (skew noise contrast : Level) (brightLv : BrightLevel)
    (blur : BlurLevel) (doc : DocType) : List (String × RecEntry) :=
  let recs : List (String × RecEntry) :=
    [("deskew", .rdict [("enabled", .rb false), ("priority", .ri 0)]),
     ("denoise", .rdict [("enabled", .rb false), ("strength", .ri 0), ("priority", .ri 0)]),
     ("contrast", .rdict [("enabled", .rb false), ("adjustment", .ri 0), ("priority", .ri 0)]),
     ("brightness", .rdict [("enabled", .rb false), ("adjustment", .ri 0), ("priority", .ri 0)]),
     ("sharpen", .rdict [("enabled", .rb false), ("strength", .ri 0), ("priority", .ri 0)]),
     ("threshold_method", .rstr "adaptive")]
  let recs :=
    if skew = .medium ∨ skew = .high then
      pySet recs "deskew" (.rdict
        [("enabled", .rb true),
         ("priority", .ri (if skew = .high then 3 else 2)),
         ("angle_threshold", .rq (1/2)), ("max_angle", .ri 10)])
    else recs
  let recs :=
    if noise = .medium ∨ noise = .high then
      pySet recs "denoise" (.rdict
        [("enabled", .rb true),
         ("strength", .ri (if noise = .high then 3 else 2)),
         ("priority", .ri (if noise = .high then 2 else 1))])
    else recs
  let recs :=
    if contrast = .low then
      pySet recs "contrast" (.rdict
        [("enabled", .rb true), ("adjustment", .ri 30), ("priority", .ri 2)])
    else recs
  let recs :=
    if brightLv = .dark ∨ brightLv = .very_dark then
      pySet recs "brightness" (.rdict
        [("enabled", .rb true),
         ("adjustment", .ri (if brightLv = .very_dark then 40 else 20)),
         ("priority", .ri 2)])
    else if brightLv = .overexposed then
      pySet recs "brightness" (.rdict
        [("enabled", .rb true), ("adjustment", .ri (-20)), ("priority", .ri 1)])
    else recs
  let recs :=
    if blur = .blurry then
      pySet recs "sharpen" (.rdict
        [("enabled", .rb true), ("strength", .ri 2), ("priority", .ri 1)])
    else recs
  pySet recs "threshold_method"
    (.rstr (if doc = .text_heavy then "adaptive" else "otsu"))

/-! ## Preprocessing options (`PreprocessingOptions` values) -/

/-- A value of a preprocessing-options dict: bool, int, or a nested dict of
ints (the `denoise` config). -/
inductive PVal
  | pb : Bool → PVal
  | pi : ℤ → PVal
  | pd : List (String × ℤ) → PVal
deriving DecidableEq

/-- A preprocessing-options dict. -/
abbrev PDict := List (String × PVal)

/-- Python truthiness of a `PVal` (`False`, `0` and `{}` are falsy). -/
def PVal.truthy : PVal → Bool
  | .pb b => b
  | .pi n => n ≠ 0
  | .pd d => d ≠ []

/-- Whether a `PVal` is a Python dict. -/
def PVal.isPd : PVal → Bool
  | .pd _ => true
  | _ => false

/-- Python `int(v)` on an option value: succeeds on bools and ints, raises
`TypeError` on a dict. -/
def pyInt : PVal → Except String ℤ
  | .pb b => pure (if b then 1 else 0)
  | .pi n => pure n
  | .pd _ => .error "TypeError: int() argument must not be a dict"

/-- Python `int(v or 0)`: a falsy value is replaced by `0` first. -/
def pyIntOrZero (v : PVal) : Except String ℤ :=
  if v.truthy then pyInt v else pure 0

/-! ## Auto options (`_derive_auto_preprocessing_options`) -/

/-- Source `_derive_auto_preprocessing_options`, as a function of the analysis
levels and the quality score `q` (the only analysis fields it reads). -/
def derive_auto_preprocessing_options (q : ℤ) (noise contrast : Level)
    (brightLv : BrightLevel) (blur : BlurLevel) (doc : DocType) : PDict :=
  let opts : PDict := []
  let opts :=
    if noise = .high then pySet opts "denoise" (.pd [("strength", 7)])
    else if noise = .medium then pySet opts "denoise" (.pd [("strength", 4)])
    else if noise = .low ∧ q < 45 then pySet opts "denoise" (.pd [("strength", 3)])
    else opts
  let opts :=
    if contrast = .low then pySet opts "contrast" (.pi 30)
    else if contrast = .medium ∧ q < 60 then pySet opts "contrast" (.pi 15)
    else opts
  let opts :=
    if brightLv = .very_dark then pySet opts "brightness" (.pi 40)
    else if brightLv = .dark then pySet opts "brightness" (.pi 20)
    else if brightLv = .overexposed then pySet opts "brightness" (.pi (-20))
    else opts
  let opts :=
    if blur = .blurry ∧ q < 65 then pySet opts "sharpen" (.pi 1)
    else opts
  let opts :=
    if (doc = .simple_text ∨ doc = .text_heavy) ∧ brightLv ≠ .overexposed then
      pySet opts "grayscale" (.pb true)
    else opts
  opts

/-! ## Option merge (`_merge_preprocessing_options`) -/

/-- One iteration of the merge loop body: for key `k` with user value `v`,
if both the user value and the current merged value are dicts, merge one
level deep with `dict.update`; otherwise the user value replaces. -/
def mergeStep (merged : PDict) (kv : String × PVal) : PDict :=
  match kv.2, pyGet merged kv.1 with
  | .pd vd, some (.pd md) => pySet merged kv.1 (.pd (pyUpdate md vd))
  | _, _ => pySet merged kv.1 kv.2

/-- Source `_merge_preprocessing_options`: `None` or `{}` returns a copy of
`auto_opts`; otherwise fold the merge step over the user items in order. -/
def merge_preprocessing_options (auto_opts : PDict) (user_opts : Option PDict) : PDict :=
  match user_opts with
  | none => auto_opts
  | some u => if u = [] then auto_opts else u.foldl mergeStep auto_opts

/-- The value the merge assigns at a user key, given the pre-existing value. -/
def mergeVal (old : Option PVal) (v : PVal) : PVal :=
  match v, old with
  | .pd vd, some (.pd md) => .pd (pyUpdate md vd)
  | _, _ => v

/-! ## Denoise parameter interpretation (`_apply_user_overrides`) -/

/-- The `(strength, template, search)` triple computed by the denoise
branch of `_apply_user_overrides` from the option value: bool → defaults;
int → clamped to [1, 15]; dict → per-key lookup with defaults, strength
clamped. -/
def denoiseParams : PVal → ℤ × ℤ × ℤ
  | .pb _ => (3, 7, 21)
  | .pi n => (max 1 (min 15 n), 7, 21)
  | .pd d => (max 1 (min 15 (pyGetD d "strength" 3)),
              pyGetD d "template" 7, pyGetD d "search" 21)

/-! ## Images and uninterpreted pixel operations

An `Img` is an opaque pixel grid: `tok` abstracts the content and `color`
records whether the array is 3-channel (`len(img.shape) == 3`).  The
pixel-level library routines are uninterpreted parameters (`CvOps`).
Routines whose invocation sites sit inside a `try` block in the source, or
whose exception behaviour the claims discuss, return `Except String Img`
("raises" = `.error`); routines the claims do not concern are total. -/

structure Img where
  tok : ℕ
  color : Bool
deriving DecidableEq

/-- The pixel-level primitives of the pipeline.  Each `…Body` field is the
body of the corresponding `try` block (or, for `rgb2grayOverride`, the
unguarded conversion of the grayscale sub-step of `_apply_user_overrides`). -/
structure CvOps where
  /-- Source `Image.open(io.BytesIO(image_bytes))`: `none` models a decode error. -/
  decode : List ℕ → Option Img
  /-- PIL mode normalisation (RGBA compositing / convert to RGB). -/
  normalizeMode : Img → Img
  /-- The pixel measurements of `DocumentAnalyzer` (statistics, thresholds
  inputs, pooled skew candidate angles, document type). -/
  measure : Img → Level × Level × BrightLevel × BlurLevel × DocType × List ℚ
  /-- Source `cv2.cvtColor(img_array, cv2.COLOR_RGB2GRAY)` at pass-1 entry. -/
  rgb2grayEntry : Img → Img
  /-- Source `cv2.cvtColor(img_array, cv2.COLOR_GRAY2RGB)` at pass-1 entry. -/
  gray2rgbEntry : Img → Img
  /-- Body of the `try` in `DynamicPreprocessor._apply_deskew`. -/
  deskewBody : List (String × RVal) → Img × Img → Except String (Img × Img)
  /-- Body of the `try` in `DynamicPreprocessor._apply_denoise`. -/
  denoiseBody : List (String × RVal) → Img × Img → Except String (Img × Img)
  /-- Body of the `try` in `DynamicPreprocessor._apply_contrast`. -/
  contrastBody : List (String × RVal) → Img × Img → Except String (Img × Img)
  /-- Body of the `try` in `DynamicPreprocessor._apply_brightness`. -/
  brightnessBody : List (String × RVal) → Img × Img → Except String (Img × Img)
  /-- Body of the `try` in `DynamicPreprocessor._apply_sharpen`. -/
  sharpenBody : List (String × RVal) → Img × Img → Except String (Img × Img)
  /-- Source `cv2.cvtColor(processed_img, cv2.COLOR_GRAY2RGB)` at the entry of
  `_apply_user_overrides`. -/
  gray2rgbOverrideEntry : Img → Img
  /-- Source `cv2.cvtColor(working_img, cv2.COLOR_RGB2GRAY)` in the grayscale
  sub-step of `_apply_user_overrides` — NOT inside any `try` in the source. -/
  rgb2grayOverride : Img → Except String Img
  /-- Body of the `try` in the denoise sub-step of `_apply_user_overrides`,
  after the `(strength, template, search)` triple has been computed. -/
  denoiseUserBody : ℤ × ℤ × ℤ → Img → Except String Img
  /-- Body of the `try` in the contrast sub-step of `_apply_user_overrides`. -/
  contrastUserBody : ℤ → Img → Except String Img
  /-- Body of the `try` in the brightness sub-step of `_apply_user_overrides`. -/
  brightnessUserBody : ℤ → Img → Except String Img
  /-- Body of the `try` in the sharpen sub-step of `_apply_user_overrides`. -/
  sharpenUserBody : ℤ → Img → Except String Img
  /-- Source `cv2.cvtColor(processed_img, cv2.COLOR_GRAY2RGB)` before encoding. -/
  gray2rgbFinal : Img → Img
  /-- Source `processed_image.save(byte_io, format='JPEG', quality=92, optimize=True)`. -/
  encodeJpeg : Img → List ℕ

/-- Model of `try: x = body(x) except Exception: pass` — a failing body leaves the
pre-failure value in place. -/
def tryStep {α : Type} (body : α → Except String α) (x : α) : α :=
  match body x with
  | .ok y => y
  | .error _ => x

/-! ## Pass 1 (`DynamicPreprocessor._apply_adaptive_preprocessing`) -/

/-- The `steps` list built by `_apply_adaptive_preprocessing`:
`(config.get('priority', 0), step_name, config)` for every entry of the
recommendations dict that is a dict with truthy `enabled`, in the dict's
insertion order. -/
def selectSteps (recs : List (String × RecEntry)) :
    List (ℤ × String × List (String × RVal)) :=
  recs.filterMap fun p =>
    match p.2 with
    | .rdict d => if isEnabledDict (.rdict d) then some (priorityOf d, p.1, d) else none
    | .rstr _ => none

/-- Ordering of index-tagged steps: descending priority, ties by ascending
original position.  `list.sort(key=lambda x: x[0], reverse=True)` is
documented to produce exactly this order (Python's sort is stable and
`reverse=True` preserves the order of equal keys). -/
def stepKeyLE (a b : (ℤ × String × List (String × RVal)) × ℕ) : Prop :=
  b.1.1 < a.1.1 ∨ (a.1.1 = b.1.1 ∧ a.2 ≤ b.2)

instance : DecidableRel stepKeyLE := fun a b => by
  unfold stepKeyLE; infer_instance

instance : IsTotal ((ℤ × String × List (String × RVal)) × ℕ) stepKeyLE := by
  constructor
  intro a b
  unfold stepKeyLE
  rcases lt_trichotomy a.1.1 b.1.1 with h | h | h
  · exact Or.inr (Or.inl h)
  · rcases Nat.le_total a.2 b.2 with h2 | h2
    · exact Or.inl (Or.inr ⟨h, h2⟩)
    · exact Or.inr (Or.inr ⟨h.symm, h2⟩)
  · exact Or.inl (Or.inl h)

instance : IsTrans ((ℤ × String × List (String × RVal)) × ℕ) stepKeyLE := by
  constructor
  intro a b c hab hbc
  unfold stepKeyLE at *
  rcases hab with h1 | ⟨h1, h1'⟩ <;> rcases hbc with h2 | ⟨h2, h2'⟩
  · exact Or.inl (h2.trans h1)
  · exact Or.inl (h2 ▸ h1)
  · exact Or.inl (h1 ▸ h2)
  · exact Or.inr ⟨h1.trans h2, h1'.trans h2'⟩

/-- The enabled steps tagged with their position in the `steps` list. -/
def taggedSteps (recs : List (String × RecEntry)) :
    List ((ℤ × String × List (String × RVal)) × ℕ) :=
  (selectSteps recs).enum.map fun p => (p.2, p.1)

/-- The tagged steps in application order (descending priority, stable). -/
def sortedTagged (recs : List (String × RecEntry)) :
    List ((ℤ × String × List (String × RVal)) × ℕ) :=
  List.insertionSort stepKeyLE (taggedSteps recs)

/-- Source `steps.sort(key=lambda x: x[0], reverse=True)`: the application order of
pass 1. -/
def sortSteps (recs : List (String × RecEntry)) :
    List (ℤ × String × List (String × RVal)) :=
  (sortedTagged recs).map Prod.fst

/-- The `if step_name == … / elif …` dispatch of the pass-1 loop body; each
branch is the corresponding `_apply_…` helper, i.e. a `try`-guarded body.
An unrecognised name applies nothing. -/
def dispatchStep (ops : CvOps) (pair : Img × Img)
    (step : ℤ × String × List (String × RVal)) : Img × Img :=
  let name := step.2.1
  let cfg := step.2.2
  if name = "deskew" then tryStep (ops.deskewBody cfg) pair
  else if name = "denoise" then tryStep (ops.denoiseBody cfg) pair
  else if name = "contrast" then tryStep (ops.contrastBody cfg) pair
  else if name = "brightness" then tryStep (ops.brightnessBody cfg) pair
  else if name = "sharpen" then tryStep (ops.sharpenBody cfg) pair
  else pair

/-- Source `DynamicPreprocessor._apply_adaptive_preprocessing`: build the working
RGB/grayscale pair, then fold the dispatch over the priority-sorted steps;
the result is the colour working image. -/
def apply_adaptive_preprocessing (ops : CvOps) (img : Img)
    (recs : List (String × RecEntry)) : Img :=
  let pair := if img.color then (img, ops.rgb2grayEntry img)
              else (ops.gray2rgbEntry img, img)
  ((sortSteps recs).foldl (dispatchStep ops) pair).1

/-! ## Override pass (`_apply_user_overrides`) -/

/-- Grayscale sub-step: `if opts.get("grayscale", False): if len==3: convert`.
The conversion is NOT wrapped in a `try` in the source, so a failure
propagates. -/
def grayscaleStep (ops : CvOps) (opts : PDict) (w : Img) : Except String Img :=
  if (pyGetD opts "grayscale" (.pb false)).truthy then
    if w.color then ops.rgb2grayOverride w else pure w
  else pure w

/-- Denoise sub-step: `denoise_opt = opts.get("denoise", False)`; if truthy,
interpret the option inside a `try` and denoise. -/
def denoiseStep (ops : CvOps) (opts : PDict) (w : Img) : Img :=
  let denoise_opt := pyGetD opts "denoise" (.pb false)
  if denoise_opt.truthy then
    tryStep (ops.denoiseUserBody (denoiseParams denoise_opt)) w
  else w

/-- Contrast sub-step: `contrast_value = int(opts.get("contrast", 0) or 0)`
(outside the `try`; raises on a dict value), then a `try`-guarded
enhancement when non-zero. -/
def contrastStep (ops : CvOps) (opts : PDict) (w : Img) : Except String Img := do
  let contrast_value ← pyIntOrZero (pyGetD opts "contrast" (.pi 0))
  if contrast_value ≠ 0 then pure (tryStep (ops.contrastUserBody contrast_value) w)
  else pure w

/-- Brightness sub-step, same shape as the contrast sub-step. -/
def brightnessStep (ops : CvOps) (opts : PDict) (w : Img) : Except String Img := do
  let brightness_value ← pyIntOrZero (pyGetD opts "brightness" (.pi 0))
  if brightness_value ≠ 0 then pure (tryStep (ops.brightnessUserBody brightness_value) w)
  else pure w

/-- Sharpen sub-step: applied only when the coerced value is positive. -/
def sharpenStep (ops : CvOps) (opts : PDict) (w : Img) : Except String Img := do
  let sharpen_value ← pyIntOrZero (pyGetD opts "sharpen" (.pi 0))
  if sharpen_value > 0 then pure (tryStep (ops.sharpenUserBody sharpen_value) w)
  else pure w

/-- Source `_apply_user_overrides`: normalise the working image to 3 channels,
then run the five sub-steps in fixed order. -/
def apply_user_overrides (ops : CvOps) (processed_img : Img) (opts : PDict) :
    Except String Img := do
  let working := if processed_img.color then processed_img
                 else ops.gray2rgbOverrideEntry processed_img
  let working ← grayscaleStep ops opts working
  let working := denoiseStep ops opts working
  let working ← contrastStep ops opts working
  let working ← brightnessStep ops opts working
  let working ← sharpenStep ops opts working
  pure working

/-! ## Analysis assembly and the entry point (`dynamic_preprocess_image`) -/

/-- The fields of `analyze_document_quality` that drive the pipeline's
decision logic. -/
structure Analysis where
  noise : Level
  contrast : Level
  brightLv : BrightLevel
  blur : BlurLevel
  doc : DocType
  skew : SkewResult
  quality_score : ℤ
  recommendations : List (String × RecEntry)
deriving DecidableEq

/-- Source `DocumentAnalyzer.analyze_document_quality` on the measured levels:
classify skew from the pooled candidates, compute the quality score and the
recommendations. -/
def analyze_document_quality
    (m : Level × Level × BrightLevel × BlurLevel × DocType × List ℚ) : Analysis :=
  let noise := m.1
  let contrast := m.2.1
  let brightLv := m.2.2.1
  let blur := m.2.2.2.1
  let doc := m.2.2.2.2.1
  let skew := detect_skew_from_candidates m.2.2.2.2.2
  { noise := noise, contrast := contrast, brightLv := brightLv, blur := blur, doc := doc
    skew := skew
    quality_score := calculate_quality_score contrast brightLv noise blur skew.level
    recommendations := generate_recommendations skew.level noise contrast brightLv blur doc }

/-- The diagnostic report of `dynamic_preprocess_image`.  `processing_time_ms`
is wall-clock time in the source; the model pins it to 0. -/
structure Report where
  quality_score : ℤ
  document_type : String
  brightness_level : String
  contrast_level : String
  noise_level : String
  skew_angle : ℚ
  blur_level : String
  processing_applied : List String
  original_size_kb : ℚ
  processed_size_kb : ℚ
  processing_time_ms : ℚ
  auto_preprocessing_options : PDict
  final_preprocessing_options : PDict
deriving DecidableEq, Inhabited

/-- The analysis computed once per call (`process_document`). -/
def analysisOf (ops : CvOps) (img : Img) : Analysis :=
  analyze_document_quality (ops.measure img)

/-- The pass-1 output (`DynamicPreprocessor.process_document`). -/
def pass1Of (ops : CvOps) (img : Img) : Img :=
  apply_adaptive_preprocessing ops img (analysisOf ops img).recommendations

/-- The auto options derived from the analysis. -/
def autoOptsOf (ops : CvOps) (img : Img) : PDict :=
  derive_auto_preprocessing_options (analysisOf ops img).quality_score
    (analysisOf ops img).noise (analysisOf ops img).contrast
    (analysisOf ops img).brightLv (analysisOf ops img).blur (analysisOf ops img).doc

/-- The final (auto ⊕ user) options. -/
def finalOptsOf (ops : CvOps) (img : Img) (user : Option PDict) : PDict :=
  merge_preprocessing_options (autoOptsOf ops img) user

/-- The diagnostic report built at the end of `dynamic_preprocess_image`. -/
def reportOf (ops : CvOps) (image_bytes : List ℕ) (img : Img)
    (user : Option PDict) (outBytes : List ℕ) : Report :=
  { quality_score := (analysisOf ops img).quality_score
    document_type := (analysisOf ops img).doc.toStr
    brightness_level := (analysisOf ops img).brightLv.toStr
    contrast_level := (analysisOf ops img).contrast.toStr
    noise_level := (analysisOf ops img).noise.toStr
    skew_angle := (analysisOf ops img).skew.angle
    blur_level := (analysisOf ops img).blur.toStr
    processing_applied := (analysisOf ops img).recommendations.filterMap
      (fun p => if isEnabledDict p.2 then some p.1 else none)
    original_size_kb := (image_bytes.length : ℚ) / 1024
    processed_size_kb := (outBytes.length : ℚ) / 1024
    processing_time_ms := 0
    auto_preprocessing_options := autoOptsOf ops img
    final_preprocessing_options := finalOptsOf ops img user }

/-- Source `dynamic_preprocess_image(image_bytes, preprocessing_options)`:
decode (fatal on failure), normalise mode, analyse, pass 1, derive auto
options, merge with the user options, optional override pass, normalise to
RGB, encode, and build the report. -/
def dynamic_preprocess_image (ops : CvOps) (image_bytes : List ℕ)
    (preprocessing_options : Option PDict) : Except String (List ℕ × Report) :=
  match ops.decode image_bytes with
  | none => Except.error "cannot identify image file"
  | some decoded =>
  let img := ops.normalizeMode decoded
  match (if finalOptsOf ops img preprocessing_options ≠ [] then
           apply_user_overrides ops (pass1Of ops img)
             (finalOptsOf ops img preprocessing_options)
         else Except.ok (pass1Of ops img)) with
  | Except.error e => Except.error e
  | Except.ok processed =>
  let outImg := if processed.color then processed else ops.gray2rgbFinal processed
  Except.ok (ops.encodeJpeg outImg,
    reportOf ops image_bytes img preprocessing_options (ops.encodeJpeg outImg))

/-! ## Merge lemmas -/

theorem pyGet_mergeStep_self (m : PDict) (k : String) (v : PVal) :
    pyGet (mergeStep m (k, v)) k = some (mergeVal (pyGet m k) v) := by
  cases v with
  | pd vd =>
      cases hm : pyGet m k with
      | none => simp [mergeStep, mergeVal, hm, pyGet_pySet_self]
      | some w => cases w <;> simp [mergeStep, mergeVal, hm, pyGet_pySet_self]
  | pb b =>
      cases hm : pyGet m k with
      | none => simp [mergeStep, mergeVal, hm, pyGet_pySet_self]
      | some w => cases w <;> simp [mergeStep, mergeVal, hm, pyGet_pySet_self]
  | pi n =>
      cases hm : pyGet m k with
      | none => simp [mergeStep, mergeVal, hm, pyGet_pySet_self]
      | some w => cases w <;> simp [mergeStep, mergeVal, hm, pyGet_pySet_self]

theorem pyGet_mergeStep_ne (m : PDict) (kv : String × PVal) {k : String}
    (h : kv.1 ≠ k) : pyGet (mergeStep m kv) k = pyGet m k := by
  obtain ⟨k', v⟩ := kv
  cases v with
  | pd vd =>
      cases hm : pyGet m k' with
      | none => simp [mergeStep, hm, pyGet_pySet_ne _ h]
      | some w => cases w <;> simp [mergeStep, hm, pyGet_pySet_ne _ h]
  | pb b =>
      cases hm : pyGet m k' with
      | none => simp [mergeStep, hm, pyGet_pySet_ne _ h]
      | some w => cases w <;> simp [mergeStep, hm, pyGet_pySet_ne _ h]
  | pi n =>
      cases hm : pyGet m k' with
      | none => simp [mergeStep, hm, pyGet_pySet_ne _ h]
      | some w => cases w <;> simp [mergeStep, hm, pyGet_pySet_ne _ h]

theorem pyGet_foldl_mergeStep_not_mem (u : PDict) (m : PDict) {k : String}
    (h : k ∉ keysOf u) : pyGet (u.foldl mergeStep m) k = pyGet m k := by
  induction u generalizing m with
  | nil => rfl
  | cons hd tl ih =>
      simp only [keysOf, List.map_cons, List.mem_cons, not_or] at h
      have h1 : hd.1 ≠ k := fun he => h.1 he.symm
      calc pyGet ((hd :: tl).foldl mergeStep m) k
          = pyGet (tl.foldl mergeStep (mergeStep m hd)) k := rfl
        _ = pyGet (mergeStep m hd) k := ih _ (by simpa [keysOf] using h.2)
        _ = pyGet m k := pyGet_mergeStep_ne m hd h1

theorem pyGet_foldl_mergeStep_of_mem (u : PDict) (m : PDict) {k : String} {v : PVal}
    (hnd : (keysOf u).Nodup) (hmem : (k, v) ∈ u) :
    pyGet (u.foldl mergeStep m) k = some (mergeVal (pyGet m k) v) := by
  induction u generalizing m with
  | nil => cases hmem
  | cons hd tl ih =>
      obtain ⟨k', v'⟩ := hd
      simp only [keysOf, List.map_cons, List.nodup_cons] at hnd
      rcases List.mem_cons.mp hmem with heq | htl
      · have hk : k = k' := congrArg Prod.fst heq
        have hv : v = v' := congrArg Prod.snd heq
        subst hk; subst hv
        have hnot : k ∉ keysOf tl := by simpa [keysOf] using hnd.1
        calc pyGet (((k, v) :: tl).foldl mergeStep m) k
            = pyGet (tl.foldl mergeStep (mergeStep m (k, v))) k := rfl
          _ = pyGet (mergeStep m (k, v)) k := pyGet_foldl_mergeStep_not_mem tl _ hnot
          _ = some (mergeVal (pyGet m k) v) := pyGet_mergeStep_self m k v
      · have hne : k' ≠ k := by
          intro he
          subst he
          exact hnd.1 (by simpa [keysOf] using List.mem_map_of_mem Prod.fst htl)
        calc pyGet (((k', v') :: tl).foldl mergeStep m) k
            = pyGet (tl.foldl mergeStep (mergeStep m (k', v'))) k := rfl
          _ = some (mergeVal (pyGet (mergeStep m (k', v')) k) v) := ih _ hnd.2 htl
          _ = some (mergeVal (pyGet m k) v) := by rw [pyGet_mergeStep_ne m _ hne]

/-! ## Claim theorems -/

/-- C3: for every analysis, `quality_score` equals 50 plus the exact
level-indexed bonuses (contrast: high 25 / medium 15 / low 0; brightness:
normal 20 / bright 15 / dark 10 / very_dark 0 / overexposed 5; noise:
low 0 / medium -5 / high -15; blur: sharp 5 / moderate 0 / blurry -10;
skew: low 0 / medium -2 / high -5), clamped to [0, 100]; hence
0 ≤ quality_score ≤ 100 for every level combination, and the classification
(contrast low, brightness normal, noise low, blur blurry, skew low) of a
uniform mid-gray image scores exactly 60. -/
theorem quality_score_spec :
    (∀ (c : Level) (b : BrightLevel) (n : Level) (bl : BlurLevel) (s : Level),
      calculate_quality_score c b n bl s =
        max 0 (min 100 (50 +
          (if c = .high then 25 else if c = .medium then 15 else 0) +
          (if b = .normal then 20 else if b = .bright then 15
           else if b = .dark then 10 else if b = .very_dark then 0 else 5) +
          (if n = .low then 0 else if n = .medium then -5 else -15) +
          (if bl = .sharp then 5 else if bl = .moderate then 0 else -10) +
          (if s = .low then 0 else if s = .medium then -2 else -5))) ∧
      0 ≤ calculate_quality_score c b n bl s ∧
      calculate_quality_score c b n bl s ≤ 100) ∧
    calculate_quality_score .low .normal .low .blurry .low = 60 := by
  constructor
  · decide
  · decide

/-- C4: merging with `None` or `{}` is the identity; a user entry whose
value is not a dict replaces the auto value outright; a user entry whose
value is a dict, against an auto dict value, merges one level deep — every
sub-key of the user dict keeps the user value, every other sub-key of the
auto dict keeps the auto value; and the concrete denoise scenario of the
spec holds. -/
theorem merge_preprocessing_options_spec :
    (∀ auto_opts : PDict, merge_preprocessing_options auto_opts none = auto_opts) ∧
    (∀ auto_opts : PDict, merge_preprocessing_options auto_opts (some []) = auto_opts) ∧
    (∀ (auto_opts u : PDict) (k : String) (v : PVal),
      (keysOf u).Nodup → (k, v) ∈ u → v.isPd = false →
      pyGet (merge_preprocessing_options auto_opts (some u)) k = some v) ∧
    (∀ (auto_opts u : PDict) (k : String) (vd md : List (String × ℤ)),
      (keysOf u).Nodup → (keysOf vd).Nodup → (k, PVal.pd vd) ∈ u →
      pyGet auto_opts k = some (PVal.pd md) →
      pyGet (merge_preprocessing_options auto_opts (some u)) k
        = some (.pd (pyUpdate md vd)) ∧
      (∀ (j : String) (x : ℤ), (j, x) ∈ vd → pyGet (pyUpdate md vd) j = some x) ∧
      (∀ j : String, j ∉ keysOf vd → pyGet (pyUpdate md vd) j = pyGet md j)) ∧
    merge_preprocessing_options
      [("denoise", .pd [("strength", 3), ("template", 7), ("search", 21)])]
      (some [("denoise", .pd [("strength", 9)])]) =
      [("denoise", .pd [("strength", 9), ("template", 7), ("search", 21)])] := by
  refine ⟨fun _ => rfl, fun _ => rfl, ?_, ?_, by decide⟩
  · intro auto_opts u k v hnd hmem hscalar
    have hne : u ≠ [] := by rintro rfl; cases hmem
    have hfold := pyGet_foldl_mergeStep_of_mem u auto_opts hnd hmem
    have hval : mergeVal (pyGet auto_opts k) v = v := by
      cases v with
      | pd vd => simp [PVal.isPd] at hscalar
      | pb b => cases pyGet auto_opts k with
        | none => rfl
        | some w => cases w <;> rfl
      | pi n => cases pyGet auto_opts k with
        | none => rfl
        | some w => cases w <;> rfl
    simpa [merge_preprocessing_options, hne, hval] using hfold
  · intro auto_opts u k vd md hnd hndv hmem hauto
    have hne : u ≠ [] := by rintro rfl; cases hmem
    have hfold := pyGet_foldl_mergeStep_of_mem u auto_opts hnd hmem
    refine ⟨?_, ?_, ?_⟩
    · simpa [merge_preprocessing_options, hne, mergeVal, hauto] using hfold
    · intro j x hjx
      exact pyGet_pyUpdate_of_mem vd md hndv hjx
    · intro j hj
      exact pyGet_pyUpdate_not_mem vd md hj

/-- Witness for `merge_preprocessing_options_spec`: the scalar-override and
nested-merge clauses at concrete inputs, with every hypothesis discharged. -/
theorem merge_preprocessing_options_spec_witness :
    pyGet (merge_preprocessing_options [("contrast", .pi 30)]
      (some [("contrast", .pi 15)])) "contrast" = some (.pi 15) ∧
    pyGet (merge_preprocessing_options
      [("denoise", .pd [("strength", 3), ("template", 7)])]
      (some [("denoise", .pd [("strength", 9)])])) "denoise"
      = some (.pd (pyUpdate [("strength", 3), ("template", 7)] [("strength", 9)])) := by
  constructor
  · exact merge_preprocessing_options_spec.2.2.1
      [("contrast", .pi 30)] [("contrast", .pi 15)] "contrast" (.pi 15)
      (by decide) (by decide) (by decide)
  · exact (merge_preprocessing_options_spec.2.2.2.1
      [("denoise", .pd [("strength", 3), ("template", 7)])]
      [("denoise", .pd [("strength", 9)])] "denoise"
      [("strength", 9)] [("strength", 3), ("template", 7)]
      (by decide) (by decide) (by decide) (by decide)).1

/-- C1 counterexample: with 11 pooled candidate angles the detector's
confidence is `11/10`, not `min 1.0 (11/10) = 1.0`: the source computes
`len(angles) / 10.0` with no clamp, so the claimed formula
`min(1.0, candidate_count/10)` is false at this input. -/
theorem skew_confidence_clamp_counterexample :
    ¬ ((detect_skew_from_candidates (List.replicate 11 (0:ℚ))).confidence =
        min 1 (((List.replicate 11 (0:ℚ)).length : ℚ) / 10)) := by
  have h : (detect_skew_from_candidates (List.replicate 11 (0:ℚ))).confidence = 11 / 10 := by
    simp [detect_skew_from_candidates]
  rw [h]
  simp only [List.length_replicate]
  norm_num

/-- C1 (amended): for every pooled candidate list, the angle is the median
of the candidates (0 for the empty list), the level is `high` iff
`|angle| > 5`, `medium` iff `1 < |angle| ≤ 5`, else `low`, and the
confidence is `candidate_count / 10` with NO clamp (0 for the empty list) —
in particular the confidence exceeds 1.0 whenever more than 10 candidate
angles are pooled. -/
theorem detect_skew_candidates_spec (angles : List ℚ) :
    ((angles = [] → (detect_skew_from_candidates angles).angle = 0 ∧
        (detect_skew_from_candidates angles).confidence = 0) ∧
     (angles ≠ [] → (detect_skew_from_candidates angles).angle = npMedian angles ∧
        (detect_skew_from_candidates angles).confidence = (angles.length : ℚ) / 10)) ∧
    ((detect_skew_from_candidates angles).level = .high ↔
        5 < |(detect_skew_from_candidates angles).angle|) ∧
    ((detect_skew_from_candidates angles).level = .medium ↔
        1 < |(detect_skew_from_candidates angles).angle| ∧
        |(detect_skew_from_candidates angles).angle| ≤ 5) ∧
    ((detect_skew_from_candidates angles).level = .low ↔
        |(detect_skew_from_candidates angles).angle| ≤ 1) ∧
    (10 < angles.length → 1 < (detect_skew_from_candidates angles).confidence) := by
  set a : ℚ := if angles = [] then 0 else npMedian angles with ha
  have hangle : (detect_skew_from_candidates angles).angle = a := rfl
  have hconf : (detect_skew_from_candidates angles).confidence =
      (if angles = [] then 0 else (angles.length : ℚ) / 10) := rfl
  have hlevel : (detect_skew_from_candidates angles).level =
      (if 5 < |a| then Level.high else if 1 < |a| then Level.medium else Level.low) := rfl
  refine ⟨⟨fun h => ?_, fun h => ?_⟩, ?_, ?_, ?_, fun h => ?_⟩
  · rw [hangle, hconf]; simp [ha, h]
  · rw [hangle, hconf]; simp [ha, h]
  · rw [hlevel, hangle]
    split_ifs with h1 h2 <;> simp_all
  · rw [hlevel, hangle]
    split_ifs with h1 h2 <;> simp_all <;> linarith
  · rw [hlevel, hangle]
    split_ifs with h1 h2 <;> simp_all <;> linarith
  · have hne : angles ≠ [] := by
      intro he; rw [he] at h; simp at h
    rw [hconf]
    simp only [hne, if_false]
    rw [lt_div_iff₀ (by norm_num : (0:ℚ) < 10)]
    have : (10 : ℚ) < (angles.length : ℚ) := by exact_mod_cast h
    linarith

/-- Witness for `detect_skew_candidates_spec`: at 11 pooled zero angles the
list is non-empty, the angle is the median 0, and the confidence 11/10
exceeds 1. -/
theorem detect_skew_candidates_spec_witness :
    (detect_skew_from_candidates (List.replicate 11 (0:ℚ))).angle =
      npMedian (List.replicate 11 (0:ℚ)) ∧
    1 < (detect_skew_from_candidates (List.replicate 11 (0:ℚ))).confidence := by
  constructor
  · exact ((detect_skew_candidates_spec (List.replicate 11 (0:ℚ))).1.2 (by decide)).1
  · exact (detect_skew_candidates_spec (List.replicate 11 (0:ℚ))).2.2.2.2 (by decide)

/-- The recommendation set exactly as the spec describes it: an independent
conditional per operator (this definition follows the spec's words; the
theorem below proves it coincides with the source's dict-building code). -/
def recommendationsSpec (skew noise contrast : Level) (brightLv : BrightLevel)
    (blur : BlurLevel) (doc : DocType) : List (String × RecEntry) :=
  [("deskew",
     if skew = .medium ∨ skew = .high then
       .rdict [("enabled", .rb true),
               ("priority", .ri (if skew = .high then 3 else 2)),
               ("angle_threshold", .rq (1/2)), ("max_angle", .ri 10)]
     else .rdict [("enabled", .rb false), ("priority", .ri 0)]),
   ("denoise",
     if noise = .medium ∨ noise = .high then
       .rdict [("enabled", .rb true),
               ("strength", .ri (if noise = .high then 3 else 2)),
               ("priority", .ri (if noise = .high then 2 else 1))]
     else .rdict [("enabled", .rb false), ("strength", .ri 0), ("priority", .ri 0)]),
   ("contrast",
     if contrast = .low then
       .rdict [("enabled", .rb true), ("adjustment", .ri 30), ("priority", .ri 2)]
     else .rdict [("enabled", .rb false), ("adjustment", .ri 0), ("priority", .ri 0)]),
   ("brightness",
     if brightLv = .dark ∨ brightLv = .very_dark then
       .rdict [("enabled", .rb true),
               ("adjustment", .ri (if brightLv = .very_dark then 40 else 20)),
               ("priority", .ri 2)]
     else if brightLv = .overexposed then
       .rdict [("enabled", .rb true), ("adjustment", .ri (-20)), ("priority", .ri 1)]
     else .rdict [("enabled", .rb false), ("adjustment", .ri 0), ("priority", .ri 0)]),
   ("sharpen",
     if blur = .blurry then
       .rdict [("enabled", .rb true), ("strength", .ri 2), ("priority", .ri 1)]
     else .rdict [("enabled", .rb false), ("strength", .ri 0), ("priority", .ri 0)]),
   ("threshold_method", .rstr (if doc = .text_heavy then "adaptive" else "otsu"))]

/-- Helper: the source's recommendation dict construction coincides with
the spec-side conditional list, for every input. -/
theorem generate_recommendations_eq (skew noise contrast : Level)
    (brightLv : BrightLevel) (blur : BlurLevel) (doc : DocType) :
    generate_recommendations skew noise contrast brightLv blur doc =
      recommendationsSpec skew noise contrast brightLv blur doc := by
  cases skew <;> cases noise <;> cases contrast <;> cases brightLv <;>
    cases blur <;> cases doc <;> rfl

/-- C5: for every analysis, the recommendation set is derived exactly per
the spec's per-operator rules: deskew enabled iff skew ∈ {medium, high}
(priority 3 if high else 2, `angle_threshold=0.5`, `max_angle=10`); denoise
enabled iff noise ∈ {medium, high} (strength 3 if high else 2, priority 2
if high else 1); contrast enabled iff contrast is low (adjustment 30,
priority 2); brightness enabled iff brightness ∈ {dark, very_dark,
overexposed} (adjustment 40 if very_dark, 20 if dark, -20 if overexposed;
priority 2 for the dark cases, 1 for overexposed); sharpen enabled iff blur
is blurry (strength 2, priority 1); `threshold_method` is `"adaptive"` iff
the document type is text_heavy, else `"otsu"`. -/
theorem generate_recommendations_spec (skew noise contrast : Level)
    (brightLv : BrightLevel) (blur : BlurLevel) (doc : DocType) :
    generate_recommendations skew noise contrast brightLv blur doc =
      recommendationsSpec skew noise contrast brightLv blur doc :=
  generate_recommendations_eq skew noise contrast brightLv blur doc

/-- The auto-derived option set exactly as the spec describes it (built by
appending the independent per-field contributions in the source's
assignment order; the theorem below proves it coincides with the source's
conditional dict assignments). -/
def autoOptionsSpec (q : ℤ) (noise contrast : Level) (brightLv : BrightLevel)
    (blur : BlurLevel) (doc : DocType) : PDict :=
  (if noise = .high then [("denoise", PVal.pd [("strength", 7)])]
   else if noise = .medium then [("denoise", PVal.pd [("strength", 4)])]
   else if noise = .low ∧ q < 45 then [("denoise", PVal.pd [("strength", 3)])]
   else []) ++
  (if contrast = .low then [("contrast", PVal.pi 30)]
   else if contrast = .medium ∧ q < 60 then [("contrast", PVal.pi 15)]
   else []) ++
  (if brightLv = .very_dark then [("brightness", PVal.pi 40)]
   else if brightLv = .dark then [("brightness", PVal.pi 20)]
   else if brightLv = .overexposed then [("brightness", PVal.pi (-20))]
   else []) ++
  (if blur = .blurry ∧ q < 65 then [("sharpen", PVal.pi 1)] else []) ++
  (if (doc = .simple_text ∨ doc = .text_heavy) ∧ brightLv ≠ .overexposed then
     [("grayscale", PVal.pb true)]
   else [])

set_option maxHeartbeats 1600000 in
/-- Helper: the source's conditional dict assignments coincide with the
spec-side append form, for every input. -/
theorem derive_auto_eq_autoOptionsSpec (q : ℤ) (noise contrast : Level)
    (brightLv : BrightLevel) (blur : BlurLevel) (doc : DocType) :
    derive_auto_preprocessing_options q noise contrast brightLv blur doc =
      autoOptionsSpec q noise contrast brightLv blur doc := by
  cases noise <;> cases contrast <;> cases brightLv <;> cases blur <;> cases doc <;>
    (by_cases h45 : q < 45 <;> by_cases h60 : q < 60 <;> by_cases h65 : q < 65 <;>
      simp [derive_auto_preprocessing_options, autoOptionsSpec, pySet, h45, h60, h65])

/-- C6: `_derive_auto_preprocessing_options` produces exactly the spec's
rules — denoise strength 7 / 4 / (3 when quality < 45) for noise
high / medium / low; contrast 30 when low, 15 when medium and quality < 60;
brightness 40 / 20 / -20 for very_dark / dark / overexposed; sharpen 1 when
blurry and quality < 65; grayscale exactly when the document type is
simple_text or text_heavy and brightness is not overexposed — and, in
particular, for a very_dark image the auto options include
`brightness = 40`. -/
theorem derive_auto_options_spec :
    (∀ (q : ℤ) (noise contrast : Level) (brightLv : BrightLevel)
        (blur : BlurLevel) (doc : DocType),
      derive_auto_preprocessing_options q noise contrast brightLv blur doc =
        autoOptionsSpec q noise contrast brightLv blur doc) ∧
    (∀ (q : ℤ) (noise contrast : Level) (blur : BlurLevel) (doc : DocType),
      pyGet (derive_auto_preprocessing_options q noise contrast .very_dark blur doc)
        "brightness" = some (.pi 40)) := by
  refine ⟨derive_auto_eq_autoOptionsSpec, fun q noise contrast blur doc => ?_⟩
  rw [derive_auto_eq_autoOptionsSpec]
  cases noise <;> cases contrast <;>
    (by_cases h45 : q < 45 <;> by_cases h60 : q < 60 <;>
      simp [autoOptionsSpec, pyGet, h45, h60])

/-- C7: the denoise branch of the override pass interprets the option value
as: bool → `(3, 7, 21)`; int `n` → strength `n` clamped to [1, 15] with
template 7 and search 21 (so 50 → 15, and 0 or a negative value → 1 when
the branch runs at all); dict → its own strength clamped to [1, 15]
(default 3), its own template (default 7) and search (default 21); the
strength actually used is always within [1, 15] for int and dict options,
and a truthy `denoise` option makes `denoiseStep` run the denoise body with
exactly these parameters. -/
theorem denoise_params_spec :
    (∀ b : Bool, denoiseParams (.pb b) = (3, 7, 21)) ∧
    (∀ n : ℤ, denoiseParams (.pi n) = (max 1 (min 15 n), 7, 21) ∧
      1 ≤ (denoiseParams (.pi n)).1 ∧ (denoiseParams (.pi n)).1 ≤ 15) ∧
    denoiseParams (.pi 50) = (15, 7, 21) ∧
    denoiseParams (.pi 0) = (1, 7, 21) ∧
    (∀ n : ℤ, n ≤ 0 → (denoiseParams (.pi n)).1 = 1) ∧
    (∀ d : List (String × ℤ),
      denoiseParams (.pd d) = (max 1 (min 15 (pyGetD d "strength" 3)),
        pyGetD d "template" 7, pyGetD d "search" 21) ∧
      1 ≤ (denoiseParams (.pd d)).1 ∧ (denoiseParams (.pd d)).1 ≤ 15) ∧
    (∀ (ops : CvOps) (opts : PDict) (w : Img) (v : PVal),
      pyGet opts "denoise" = some v → v.truthy = true →
      denoiseStep ops opts w = tryStep (ops.denoiseUserBody (denoiseParams v)) w) := by
  refine ⟨fun b => rfl, fun n => ⟨rfl, ?_, ?_⟩, by decide, by decide,
    fun n hn => ?_, fun d => ⟨rfl, ?_, ?_⟩, fun ops opts w v hget htruthy => ?_⟩
  · simp [denoiseParams]
    all_goals omega
  · simp [denoiseParams]
    all_goals omega
  · simp [denoiseParams]
    all_goals omega
  · simp [denoiseParams]
    all_goals omega
  · simp [denoiseParams]
    all_goals omega
  · simp [denoiseStep, pyGetD, hget, htruthy]

/-- Witness for `denoise_params_spec`: the negative-int clause and the
`denoiseStep` clause at concrete inputs. -/
theorem denoise_params_spec_witness :
    (denoiseParams (.pi (-7))).1 = 1 ∧
    denoiseStep
      { decode := fun _ => none, normalizeMode := id,
        measure := fun _ => (.low, .low, .normal, .sharp, .simple_text, []),
        rgb2grayEntry := id, gray2rgbEntry := id,
        deskewBody := fun _ p => .ok p, denoiseBody := fun _ p => .ok p,
        contrastBody := fun _ p => .ok p, brightnessBody := fun _ p => .ok p,
        sharpenBody := fun _ p => .ok p,
        gray2rgbOverrideEntry := id, rgb2grayOverride := fun i => .ok i,
        denoiseUserBody := fun _ i => .ok i, contrastUserBody := fun _ i => .ok i,
        brightnessUserBody := fun _ i => .ok i, sharpenUserBody := fun _ i => .ok i,
        gray2rgbFinal := id, encodeJpeg := fun _ => [] }
      [("denoise", .pi 9)] ⟨0, true⟩ =
      tryStep ((fun _ i => Except.ok i : ℤ × ℤ × ℤ → Img → Except String Img)
        (denoiseParams (.pi 9))) ⟨0, true⟩ := by
  constructor
  · exact denoise_params_spec.2.2.2.2.1 (-7) (by decide)
  · exact denoise_params_spec.2.2.2.2.2.2 _ [("denoise", .pi 9)] ⟨0, true⟩ (.pi 9)
      (by decide) (by decide)

/-- The operator names enabled by the recommendation set, in the dict's
insertion order (deskew, denoise, contrast, brightness, sharpen). -/
def enabledNames (skew noise contrast : Level) (brightLv : BrightLevel)
    (blur : BlurLevel) : List String :=
  (if skew = .medium ∨ skew = .high then ["deskew"] else []) ++
  (if noise = .medium ∨ noise = .high then ["denoise"] else []) ++
  (if contrast = .low then ["contrast"] else []) ++
  (if brightLv = .dark ∨ brightLv = .very_dark ∨ brightLv = .overexposed then
     ["brightness"] else []) ++
  (if blur = .blurry then ["sharpen"] else [])

/-- Helper: untagging the tagged step list gives the `steps` list of the
source. -/
theorem taggedSteps_map_fst (recs : List (String × RecEntry)) :
    (taggedSteps recs).map Prod.fst = selectSteps recs := by
  simp only [taggedSteps, List.map_map]
  have : (Prod.fst ∘ fun p : ℕ × (ℤ × String × List (String × RVal)) => (p.2, p.1))
      = Prod.snd := rfl
  rw [this, List.enum_map_snd]

/-- Helper: membership in the application order is membership in the
source's `steps` list. -/
theorem mem_sortSteps_iff (recs : List (String × RecEntry))
    (step : ℤ × String × List (String × RVal)) :
    step ∈ sortSteps recs ↔ step ∈ selectSteps recs := by
  rw [← taggedSteps_map_fst]
  unfold sortSteps sortedTagged
  constructor
  · intro h
    rcases List.mem_map.mp h with ⟨t, ht, rfl⟩
    exact List.mem_map_of_mem Prod.fst ((List.perm_insertionSort stepKeyLE _).mem_iff.mp ht)
  · intro h
    rcases List.mem_map.mp h with ⟨t, ht, rfl⟩
    exact List.mem_map_of_mem Prod.fst ((List.perm_insertionSort stepKeyLE _).mem_iff.mpr ht)

/-- Helper: the enabled-step names of the generated recommendations, in
insertion order. -/
theorem selectSteps_names (sk n c : Level) (b : BrightLevel) (bl : BlurLevel)
    (dc : DocType) :
    (selectSteps (generate_recommendations sk n c b bl dc)).map (fun p => p.2.1) =
      enabledNames sk n c b bl := by
  cases sk <;> cases n <;> cases c <;> cases b <;> cases bl <;> cases dc <;> rfl

/-- C8: the pass-1 pipeline folds over exactly the dict-valued entries with
truthy `enabled` (never a disabled entry, never the non-dict
`threshold_method`), in an order that is a permutation of the source's
`steps` list, sorted by descending priority with ties kept in the
recommendation map's insertion order (deskew, denoise, contrast,
brightness, sharpen — as witnessed by the enabled-name projection), and
`_apply_adaptive_preprocessing` is precisely the fold of the operator
dispatch over that sorted list. -/
theorem pipeline_priority_order_spec :
    (∀ recs : List (String × RecEntry), (sortedTagged recs).Perm (taggedSteps recs)) ∧
    (∀ recs : List (String × RecEntry), List.Sorted stepKeyLE (sortedTagged recs)) ∧
    (∀ (recs : List (String × RecEntry)) (step : ℤ × String × List (String × RVal)),
      step ∈ sortSteps recs →
      ∃ d : List (String × RVal), (step.2.1, RecEntry.rdict d) ∈ recs ∧
        isEnabledDict (.rdict d) = true ∧ step = (priorityOf d, step.2.1, d)) ∧
    (∀ (recs : List (String × RecEntry)) (name : String) (d : List (String × RVal)),
      (name, RecEntry.rdict d) ∈ recs → isEnabledDict (.rdict d) = true →
      (priorityOf d, name, d) ∈ sortSteps recs) ∧
    (∀ (sk n c : Level) (b : BrightLevel) (bl : BlurLevel) (dc : DocType),
      (selectSteps (generate_recommendations sk n c b bl dc)).map (fun p => p.2.1) =
        enabledNames sk n c b bl) ∧
    (∀ (ops : CvOps) (img : Img) (recs : List (String × RecEntry)),
      apply_adaptive_preprocessing ops img recs =
        ((sortSteps recs).foldl (dispatchStep ops)
          (if img.color then (img, ops.rgb2grayEntry img)
           else (ops.gray2rgbEntry img, img))).1) := by
  refine ⟨fun recs => List.perm_insertionSort stepKeyLE _,
    fun recs => List.sorted_insertionSort stepKeyLE _,
    fun recs step hmem => ?_, fun recs name d hmem hen => ?_,
    selectSteps_names, fun ops img recs => rfl⟩
  · have hsel : step ∈ selectSteps recs := (mem_sortSteps_iff recs step).mp hmem
    rcases List.mem_filterMap.mp hsel with ⟨⟨nm, e⟩, hin, hmatch⟩
    cases e with
    | rstr s => simp at hmatch
    | rdict d =>
        by_cases hen : isEnabledDict (.rdict d) = true
        · refine ⟨d, ?_, hen, ?_⟩
          · have : step = (priorityOf d, nm, d) := by
              simp [hen] at hmatch
              exact hmatch.symm
            rw [this]
            simpa using hin
          · have : step = (priorityOf d, nm, d) := by
              simp [hen] at hmatch
              exact hmatch.symm
            rw [this]
        · simp [Bool.not_eq_true] at hen
          simp [hen] at hmatch
  · refine (mem_sortSteps_iff recs _).mpr ?_
    refine List.mem_filterMap.mpr ⟨(name, .rdict d), hmem, ?_⟩
    simp [hen]

/-- Witness for `pipeline_priority_order_spec`: at a concrete
recommendation set, the enabled entry appears in the application order and
every member of the application order is an enabled dict entry. -/
theorem pipeline_priority_order_spec_witness :
    ((3 : ℤ), "deskew", [("enabled", RVal.rb true), ("priority", RVal.ri 3)]) ∈
      sortSteps [("deskew", .rdict [("enabled", .rb true), ("priority", .ri 3)]),
                 ("threshold_method", .rstr "otsu")] ∧
    ∃ d : List (String × RVal),
      ("deskew", RecEntry.rdict d) ∈
        [("deskew", RecEntry.rdict [("enabled", RVal.rb true), ("priority", RVal.ri 3)]),
         ("threshold_method", RecEntry.rstr "otsu")] ∧
      isEnabledDict (.rdict d) = true ∧
      ((3 : ℤ), "deskew", [("enabled", RVal.rb true), ("priority", RVal.ri 3)]) =
        (priorityOf d, "deskew", d) := by
  constructor
  · have := pipeline_priority_order_spec.2.2.2.1
      [("deskew", .rdict [("enabled", .rb true), ("priority", .ri 3)]),
       ("threshold_method", .rstr "otsu")]
      "deskew" [("enabled", .rb true), ("priority", .ri 3)] (by decide) (by decide)
    simpa using this
  · exact pipeline_priority_order_spec.2.2.1
      [("deskew", .rdict [("enabled", .rb true), ("priority", .ri 3)]),
       ("threshold_method", .rstr "otsu")]
      ((3 : ℤ), "deskew", [("enabled", RVal.rb true), ("priority", RVal.ri 3)])
      (by decide)

/-- Helper: the report's `processing_applied` comprehension equals the name
projection of the source's `steps` list. -/
theorem filterMap_enabled_eq_selectSteps_names (recs : List (String × RecEntry)) :
    recs.filterMap (fun p => if isEnabledDict p.2 then some p.1 else none) =
      (selectSteps recs).map (fun p => p.2.1) := by
  induction recs with
  | nil => rfl
  | cons hd tl ih =>
      obtain ⟨nm, e⟩ := hd
      cases e with
      | rstr s => simpa [selectSteps, isEnabledDict] using ih
      | rdict d =>
          by_cases hen : isEnabledDict (.rdict d) = true
          · simpa [selectSteps, hen] using ih
          · simp only [Bool.not_eq_true] at hen
            simpa [selectSteps, hen] using ih

/-- C2 (amended): for every run of `dynamic_preprocess_image` that returns
a report, `processing_applied` contains exactly the names of the
recommendations enabled by the analysis — whether or not the corresponding
operator application succeeded (the source computes the list from
`analysis['recommendations']`, not from operator outcomes). -/
theorem processing_applied_enabled_spec (ops : CvOps) (image_bytes : List ℕ)
    (user : Option PDict) (img : Img) (outb : List ℕ) (r : Report)
    (hdec : ops.decode image_bytes = some img)
    (hok : dynamic_preprocess_image ops image_bytes user = .ok (outb, r)) :
    r.processing_applied =
      enabledNames
        (detect_skew_from_candidates
          (ops.measure (ops.normalizeMode img)).2.2.2.2.2).level
        (ops.measure (ops.normalizeMode img)).1
        (ops.measure (ops.normalizeMode img)).2.1
        (ops.measure (ops.normalizeMode img)).2.2.1
        (ops.measure (ops.normalizeMode img)).2.2.2.1 := by
  unfold dynamic_preprocess_image at hok
  simp only [hdec] at hok
  split at hok
  · cases hok
  · simp only [Except.ok.injEq, Prod.mk.injEq] at hok
    rw [← hok.2]
    unfold reportOf analysisOf analyze_document_quality
    dsimp only
    rw [filterMap_enabled_eq_selectSteps_names]
    exact selectSteps_names _ _ _ _ _ _

/-- A concrete operation set whose pixel primitives all succeed: a colour
image decodes, the measurements classify noise as medium (so the denoise
recommendation is enabled), and every operator body returns its input. -/
def benignOps : CvOps :=
  { decode := fun _ => some ⟨5, true⟩
    normalizeMode := id
    measure := fun _ => (.medium, .high, .normal, .sharp, .mixed_content, [])
    rgb2grayEntry := fun i => ⟨i.tok, false⟩
    gray2rgbEntry := fun i => ⟨i.tok, true⟩
    deskewBody := fun _ p => .ok p
    denoiseBody := fun _ p => .ok p
    contrastBody := fun _ p => .ok p
    brightnessBody := fun _ p => .ok p
    sharpenBody := fun _ p => .ok p
    gray2rgbOverrideEntry := fun i => ⟨i.tok, true⟩
    rgb2grayOverride := fun i => .ok ⟨i.tok, false⟩
    denoiseUserBody := fun _ i => .ok i
    contrastUserBody := fun _ i => .ok i
    brightnessUserBody := fun _ i => .ok i
    sharpenUserBody := fun _ i => .ok i
    gray2rgbFinal := fun i => ⟨i.tok, true⟩
    encodeJpeg := fun _ => [] }

/-- A concrete operation set identical to `benignOps` except that the image
measures a medium skew (candidate angles `[3]`, so the deskew
recommendation is enabled at priority 2) and nothing else, and the deskew
operator body always raises. -/
def failingDeskewOps : CvOps :=
  { benignOps with
    measure := fun _ => (.low, .high, .normal, .sharp, .mixed_content, [3])
    deskewBody := fun _ _ => .error "deskew failure" }

/-- C2 counterexample: with `failingDeskewOps` the deskew operator body
raises on the exact pair it is applied to during pass 1, yet the returned
report's `processing_applied` still equals `["deskew"]` — the list reflects
the enabled recommendations, not the operators that actually succeeded, so
the claim is false at this input. -/
theorem processing_applied_success_counterexample :
    (dynamic_preprocess_image failingDeskewOps [9] none).isOk = true ∧
    (match dynamic_preprocess_image failingDeskewOps [9] none with
     | .ok (_, r) => r.processing_applied
     | .error _ => []) = ["deskew"] ∧
    failingDeskewOps.deskewBody
      [("enabled", .rb true), ("priority", .ri 2),
       ("angle_threshold", .rq (1/2)), ("max_angle", .ri 10)]
      (⟨5, true⟩, ⟨5, false⟩) = .error "deskew failure" := by
  refine ⟨rfl, rfl, rfl⟩

/-- Witness for `processing_applied_enabled_spec`: a concrete benign run
whose report lists exactly the enabled denoise recommendation. -/
theorem processing_applied_enabled_spec_witness :
    ((dynamic_preprocess_image benignOps [9] none).toOption.getD
      ([], default)).2.processing_applied =
      enabledNames .low .medium .high .normal .sharp := by
  have hrun : dynamic_preprocess_image benignOps [9] none =
      .ok ((dynamic_preprocess_image benignOps [9] none).toOption.getD ([], default)) := rfl
  exact processing_applied_enabled_spec benignOps [9] none ⟨5, true⟩ _ _ rfl hrun

/-- Helper: a successful lookup is a membership. -/
theorem pyGet_mem {α : Type} (d : List (String × α)) (k : String) (v : α)
    (h : pyGet d k = some v) : (k, v) ∈ d := by
  induction d with
  | nil => cases h
  | cons hd tl ih =>
      obtain ⟨k', v'⟩ := hd
      by_cases hk : k' = k
      · subst hk
        simp [pyGet] at h
        subst h
        exact List.mem_cons_self _ _
      · simp [pyGet, hk] at h
        exact List.mem_cons_of_mem _ (ih h)

/-- Helper: every auto-derived value at the keys `contrast`, `brightness`
or `sharpen` is an integer, never a dict. -/
theorem auto_opts_scalar_not_dict (q : ℤ) (n c : Level) (b : BrightLevel)
    (bl : BlurLevel) (d : DocType) (k : String) (v : PVal)
    (hmem : (k, v) ∈ derive_auto_preprocessing_options q n c b bl d)
    (hk : k = "contrast" ∨ k = "brightness" ∨ k = "sharpen") :
    v.isPd = false := by
  rw [derive_auto_eq_autoOptionsSpec] at hmem
  unfold autoOptionsSpec at hmem
  simp only [List.mem_append] at hmem
  rcases hmem with ((((h | h) | h) | h) | h) <;>
    (repeat' split at h) <;> simp_all [PVal.isPd]

/-- Helper: the merged option value at `contrast`, `brightness` or
`sharpen` is never a dict, when the user options carry no dict at those
keys. -/
theorem merged_scalar_not_dict (q : ℤ) (n c : Level) (b : BrightLevel)
    (bl : BlurLevel) (d : DocType) (user : Option PDict)
    (huser : ∀ u, user = some u → (keysOf u).Nodup ∧
      ∀ k v, (k, v) ∈ u → (k = "contrast" ∨ k = "brightness" ∨ k = "sharpen") →
        v.isPd = false)
    (k : String) (v : PVal)
    (hk : k = "contrast" ∨ k = "brightness" ∨ k = "sharpen")
    (hget : pyGet (merge_preprocessing_options
      (derive_auto_preprocessing_options q n c b bl d) user) k = some v) :
    v.isPd = false := by
  cases user with
  | none =>
      exact auto_opts_scalar_not_dict q n c b bl d k v (pyGet_mem _ _ _ hget) hk
  | some u =>
      obtain ⟨hnd, hsc⟩ := huser u rfl
      by_cases hu : u = []
      · subst hu
        simp only [merge_preprocessing_options] at hget
        exact auto_opts_scalar_not_dict q n c b bl d k v (pyGet_mem _ _ _ hget) hk
      · simp only [merge_preprocessing_options, hu, if_false, if_neg hu] at hget
        by_cases hkin : k ∈ keysOf u
        · rcases List.mem_map.mp hkin with ⟨⟨k₀, uv⟩, hmem₀, hk₀⟩
          simp only at hk₀
          rw [hk₀] at hmem₀
          rw [pyGet_foldl_mergeStep_of_mem u _ hnd hmem₀] at hget
          have huv : uv.isPd = false := hsc _ _ hmem₀ hk
          have : mergeVal (pyGet (derive_auto_preprocessing_options q n c b bl d) k) uv = uv := by
            cases uv with
            | pd vd => simp [PVal.isPd] at huv
            | pb bb => cases pyGet (derive_auto_preprocessing_options q n c b bl d) k with
              | none => rfl
              | some w => cases w <;> rfl
            | pi nn => cases pyGet (derive_auto_preprocessing_options q n c b bl d) k with
              | none => rfl
              | some w => cases w <;> rfl
          rw [this] at hget
          cases hget
          exact huv
        · rw [pyGet_foldl_mergeStep_not_mem u _ hkin] at hget
          exact auto_opts_scalar_not_dict q n c b bl d k v (pyGet_mem _ _ _ hget) hk

/-- Helper: bind on a successful `Except` is application. -/
theorem exceptOk_bind {α β : Type} (a : α) (f : α → Except String β) :
    (Except.ok a >>= f) = f a := rfl

/-- Helper: `int(v or 0)` succeeds on every non-dict option value. -/
theorem pyIntOrZero_ok (v : PVal) (h : v.isPd = false) :
    ∃ n : ℤ, pyIntOrZero v = .ok n := by
  cases v with
  | pb b => cases b <;> exact ⟨_, rfl⟩
  | pi n =>
      by_cases hn : n = 0
      · subst hn; exact ⟨0, rfl⟩
      · refine ⟨n, ?_⟩
        unfold pyIntOrZero
        rw [if_pos (by simp [PVal.truthy, hn])]
        rfl
  | pd d => simp [PVal.isPd] at h

/-- Helper: the contrast sub-step succeeds whenever its option value (if
any) is not a dict. -/
theorem contrastStep_ok (ops : CvOps) (opts : PDict) (w : Img)
    (h : ∀ v, pyGet opts "contrast" = some v → v.isPd = false) :
    ∃ w', contrastStep ops opts w = .ok w' := by
  have hnd : (pyGetD opts "contrast" (.pi 0)).isPd = false := by
    unfold pyGetD
    cases hg : pyGet opts "contrast" with
    | none => rfl
    | some v => exact h v hg
  obtain ⟨n, hn⟩ := pyIntOrZero_ok _ hnd
  unfold contrastStep
  rw [hn, exceptOk_bind]
  by_cases h0 : n = 0
  · exact ⟨w, by rw [if_neg (fun hh : n ≠ 0 => hh h0)]; rfl⟩
  · exact ⟨_, by rw [if_pos h0]; rfl⟩

/-- Helper: the brightness sub-step succeeds whenever its option value (if
any) is not a dict. -/
theorem brightnessStep_ok (ops : CvOps) (opts : PDict) (w : Img)
    (h : ∀ v, pyGet opts "brightness" = some v → v.isPd = false) :
    ∃ w', brightnessStep ops opts w = .ok w' := by
  have hnd : (pyGetD opts "brightness" (.pi 0)).isPd = false := by
    unfold pyGetD
    cases hg : pyGet opts "brightness" with
    | none => rfl
    | some v => exact h v hg
  obtain ⟨n, hn⟩ := pyIntOrZero_ok _ hnd
  unfold brightnessStep
  rw [hn, exceptOk_bind]
  by_cases h0 : n = 0
  · exact ⟨w, by rw [if_neg (fun hh : n ≠ 0 => hh h0)]; rfl⟩
  · exact ⟨_, by rw [if_pos h0]; rfl⟩

/-- Helper: the sharpen sub-step succeeds whenever its option value (if
any) is not a dict. -/
theorem sharpenStep_ok (ops : CvOps) (opts : PDict) (w : Img)
    (h : ∀ v, pyGet opts "sharpen" = some v → v.isPd = false) :
    ∃ w', sharpenStep ops opts w = .ok w' := by
  have hnd : (pyGetD opts "sharpen" (.pi 0)).isPd = false := by
    unfold pyGetD
    cases hg : pyGet opts "sharpen" with
    | none => rfl
    | some v => exact h v hg
  obtain ⟨n, hn⟩ := pyIntOrZero_ok _ hnd
  unfold sharpenStep
  rw [hn, exceptOk_bind]
  by_cases h0 : n > 0
  · exact ⟨_, by rw [if_pos h0]; rfl⟩
  · exact ⟨w, by rw [if_neg h0]; rfl⟩

/-- Helper: the grayscale sub-step succeeds whenever the unguarded
conversion does. -/
theorem grayscaleStep_ok (ops : CvOps) (opts : PDict) (w : Img)
    (hgray : ∀ i, ∃ i', ops.rgb2grayOverride i = .ok i') :
    ∃ w', grayscaleStep ops opts w = .ok w' := by
  unfold grayscaleStep
  by_cases ht : (pyGetD opts "grayscale" (.pb false)).truthy
  · by_cases hc : w.color
    · obtain ⟨i', hi⟩ := hgray w
      exact ⟨i', by simp [ht, hc, hi]⟩
    · exact ⟨w, by simp only [ht, if_true, hc, if_false, Bool.false_eq_true]; rfl⟩
  · exact ⟨w, by simp only [ht, if_false, Bool.false_eq_true]; rfl⟩

/-- Helper: `_apply_user_overrides` returns an image (no exception escapes)
whenever the unguarded grayscale conversion succeeds and no dict value sits
at the integer-coerced keys. -/
theorem apply_user_overrides_ok (ops : CvOps) (p : Img) (opts : PDict)
    (hgray : ∀ i, ∃ i', ops.rgb2grayOverride i = .ok i')
    (hscalar : ∀ k v, (k = "contrast" ∨ k = "brightness" ∨ k = "sharpen") →
      pyGet opts k = some v → v.isPd = false) :
    ∃ w, apply_user_overrides ops p opts = .ok w := by
  unfold apply_user_overrides
  dsimp only
  obtain ⟨w1, h1⟩ := grayscaleStep_ok ops opts
    (if p.color then p else ops.gray2rgbOverrideEntry p) hgray
  rw [h1]
  obtain ⟨w2, h2⟩ := contrastStep_ok ops opts (denoiseStep ops opts w1)
    (fun v hv => hscalar _ v (Or.inl rfl) hv)
  simp only [exceptOk_bind]
  rw [h2]
  obtain ⟨w3, h3⟩ := brightnessStep_ok ops opts w2
    (fun v hv => hscalar _ v (Or.inr (Or.inl rfl)) hv)
  simp only [exceptOk_bind]
  rw [h3]
  obtain ⟨w4, h4⟩ := sharpenStep_ok ops opts w3
    (fun v hv => hscalar _ v (Or.inr (Or.inr rfl)) hv)
  simp only [exceptOk_bind]
  rw [h4]
  exact ⟨w4, rfl⟩

/-- C9 counterexample: a decodable input on which the pipeline still
raises.  `failingGrayscaleOps` decodes a colour image whose analysis
auto-enables the grayscale override (simple_text document, normal
brightness) and whose `cv2.cvtColor` RGB→GRAY conversion in the grayscale
sub-step of `_apply_user_overrides` raises.  That conversion is not wrapped
in any `try` in the source, so — contrary to the claim that every sub-step
failure is caught and a `(bytes, report)` pair is still returned — the
exception propagates out of `dynamic_preprocess_image`. -/
def failingGrayscaleOps : CvOps :=
  { benignOps with
    measure := fun _ => (.low, .high, .normal, .sharp, .simple_text, [])
    rgb2grayOverride := fun _ => .error "cvtColor error" }

/-- C9 counterexample theorem: the input decodes, yet the call returns an
error raised inside the grayscale sub-step of the override pass. -/
theorem grayscale_unguarded_counterexample :
    (failingGrayscaleOps.decode [9]).isSome = true ∧
    dynamic_preprocess_image failingGrayscaleOps [9] none =
      .error "cvtColor error" :=
  ⟨rfl, rfl⟩

/-- C9 (amended): `dynamic_preprocess_image` raises when the input bytes do
not decode; a failing operator body inside any `try` block leaves the
pre-failure image in place (`tryStep`); and for every decodable input the
call returns a `(bytes, report)` pair — whatever the pass-1 operator bodies
and the guarded override bodies do — provided the unguarded grayscale
conversion of the override pass does not itself raise and no dict value
reaches the unguarded `int(...)` coercions of the contrast / brightness /
sharpen sub-steps (a grayscale-conversion failure, or such a coercion
failure, propagates out of the call). -/
theorem pipeline_fail_soft_spec :
    (∀ (ops : CvOps) (image_bytes : List ℕ) (user : Option PDict),
      ops.decode image_bytes = none →
      dynamic_preprocess_image ops image_bytes user =
        .error "cannot identify image file") ∧
    (∀ (α : Type) (body : α → Except String α) (x : α) (e : String),
      body x = .error e → tryStep body x = x) ∧
    (∀ (ops : CvOps) (image_bytes : List ℕ) (user : Option PDict) (img : Img),
      ops.decode image_bytes = some img →
      (∀ i, ∃ i', ops.rgb2grayOverride i = .ok i') →
      (∀ u, user = some u → (keysOf u).Nodup ∧
        ∀ k v, (k, v) ∈ u → (k = "contrast" ∨ k = "brightness" ∨ k = "sharpen") →
          v.isPd = false) →
      (dynamic_preprocess_image ops image_bytes user).isOk = true) := by
  refine ⟨fun ops bytes user hdec => ?_, fun α body x e hbody => ?_,
    fun ops bytes user img hdec hgray huser => ?_⟩
  · unfold dynamic_preprocess_image
    rw [hdec]
  · unfold tryStep
    rw [hbody]
  · have hsc : ∀ k v, (k = "contrast" ∨ k = "brightness" ∨ k = "sharpen") →
        pyGet (finalOptsOf ops (ops.normalizeMode img) user) k = some v →
        v.isPd = false := by
      intro k v hk hget
      exact merged_scalar_not_dict _ _ _ _ _ _ user huser k v hk hget
    unfold dynamic_preprocess_image
    rw [hdec]
    dsimp only
    split
    · rename_i e heq
      split at heq
      · obtain ⟨w, hw⟩ := apply_user_overrides_ok ops
          (pass1Of ops (ops.normalizeMode img))
          (finalOptsOf ops (ops.normalizeMode img) user) hgray hsc
        rw [hw] at heq
        cases heq
      · cases heq
    · rfl

/-- Witness for `pipeline_fail_soft_spec`: a decode failure is the stated
error; a concretely failing `try` body leaves its input unchanged; and the
benign concrete run (decodable image, total grayscale conversion, no user
options) completes with a `(bytes, report)` pair. -/
theorem pipeline_fail_soft_spec_witness :
    dynamic_preprocess_image { benignOps with decode := fun _ => none } [9] none =
      .error "cannot identify image file" ∧
    tryStep (fun _ : Img => Except.error "boom") ⟨5, true⟩ = ⟨5, true⟩ ∧
    (dynamic_preprocess_image benignOps [9] none).isOk = true := by
  refine ⟨?_, ?_, ?_⟩
  · exact pipeline_fail_soft_spec.1 _ [9] none rfl
  · exact pipeline_fail_soft_spec.2.1 Img _ ⟨5, true⟩ "boom" rfl
  · exact pipeline_fail_soft_spec.2.2 benignOps [9] none ⟨5, true⟩ rfl
      (fun i => ⟨⟨i.tok, false⟩, rfl⟩) (fun u hu => by cases hu)

/-- C10: a falsy value (`False` or `0`) supplied for a recognized key
survives the merge — it replaces any auto-derived value for that key — and
makes the corresponding sub-step of the override pass a no-op, so a caller
can explicitly disable any auto-derived correction of the second pass. -/
theorem falsy_override_disable_spec :
    (∀ (auto_opts u : PDict) (k : String) (v : PVal),
      (keysOf u).Nodup → (k, v) ∈ u → (v = .pb false ∨ v = .pi 0) →
      pyGet (merge_preprocessing_options auto_opts (some u)) k = some v) ∧
    (∀ (ops : CvOps) (opts : PDict) (w : Img) (v : PVal),
      pyGet opts "grayscale" = some v → (v = .pb false ∨ v = .pi 0) →
      grayscaleStep ops opts w = .ok w) ∧
    (∀ (ops : CvOps) (opts : PDict) (w : Img) (v : PVal),
      pyGet opts "denoise" = some v → (v = .pb false ∨ v = .pi 0) →
      denoiseStep ops opts w = w) ∧
    (∀ (ops : CvOps) (opts : PDict) (w : Img) (v : PVal),
      pyGet opts "contrast" = some v → (v = .pb false ∨ v = .pi 0) →
      contrastStep ops opts w = .ok w) ∧
    (∀ (ops : CvOps) (opts : PDict) (w : Img) (v : PVal),
      pyGet opts "brightness" = some v → (v = .pb false ∨ v = .pi 0) →
      brightnessStep ops opts w = .ok w) ∧
    (∀ (ops : CvOps) (opts : PDict) (w : Img) (v : PVal),
      pyGet opts "sharpen" = some v → (v = .pb false ∨ v = .pi 0) →
      sharpenStep ops opts w = .ok w) := by
  refine ⟨fun auto_opts u k v hnd hmem hv => ?_,
    fun ops opts w v hget hv => ?_, fun ops opts w v hget hv => ?_,
    fun ops opts w v hget hv => ?_, fun ops opts w v hget hv => ?_,
    fun ops opts w v hget hv => ?_⟩
  · have hne : u ≠ [] := by rintro rfl; cases hmem
    have hfold := pyGet_foldl_mergeStep_of_mem u auto_opts hnd hmem
    have hval : mergeVal (pyGet auto_opts k) v = v := by
      rcases hv with rfl | rfl <;>
        (cases pyGet auto_opts k with
         | none => rfl
         | some w => cases w <;> rfl)
    simpa [merge_preprocessing_options, hne, hval] using hfold
  · rcases hv with rfl | rfl <;>
      (simp [grayscaleStep, pyGetD, hget, PVal.truthy]
       rfl)
  · rcases hv with rfl | rfl <;>
      simp [denoiseStep, pyGetD, hget, PVal.truthy]
  · rcases hv with rfl | rfl <;>
      (unfold contrastStep
       simp [pyGetD, hget, pyIntOrZero, PVal.truthy, exceptOk_bind]
       rfl)
  · rcases hv with rfl | rfl <;>
      (unfold brightnessStep
       simp [pyGetD, hget, pyIntOrZero, PVal.truthy, exceptOk_bind]
       rfl)
  · rcases hv with rfl | rfl <;>
      (unfold sharpenStep
       simp [pyGetD, hget, pyIntOrZero, PVal.truthy, exceptOk_bind]
       rfl)

/-- Witness for `falsy_override_disable_spec`: a user dict carrying falsy
values for every recognized key survives the merge against auto-derived
values and makes every sub-step of the override pass a no-op. -/
theorem falsy_override_disable_spec_witness :
    pyGet (merge_preprocessing_options [("grayscale", .pb true)]
      (some [("grayscale", .pb false), ("denoise", .pi 0), ("contrast", .pi 0),
             ("brightness", .pb false), ("sharpen", .pi 0)])) "grayscale" =
      some (.pb false) ∧
    grayscaleStep benignOps [("grayscale", .pb false)] ⟨5, true⟩ = .ok ⟨5, true⟩ ∧
    denoiseStep benignOps [("denoise", .pi 0)] ⟨5, true⟩ = ⟨5, true⟩ ∧
    contrastStep benignOps [("contrast", .pi 0)] ⟨5, true⟩ = .ok ⟨5, true⟩ ∧
    brightnessStep benignOps [("brightness", .pb false)] ⟨5, true⟩ = .ok ⟨5, true⟩ ∧
    sharpenStep benignOps [("sharpen", .pi 0)] ⟨5, true⟩ = .ok ⟨5, true⟩ := by
  refine ⟨?_, ?_, ?_, ?_, ?_, ?_⟩
  · exact falsy_override_disable_spec.1 [("grayscale", .pb true)]
      [("grayscale", .pb false), ("denoise", .pi 0), ("contrast", .pi 0),
       ("brightness", .pb false), ("sharpen", .pi 0)] "grayscale" (.pb false)
      (by decide) (by decide) (Or.inl rfl)
  · exact falsy_override_disable_spec.2.1 benignOps _ ⟨5, true⟩ (.pb false)
      (by decide) (Or.inl rfl)
  · exact falsy_override_disable_spec.2.2.1 benignOps _ ⟨5, true⟩ (.pi 0)
      (by decide) (Or.inr rfl)
  · exact falsy_override_disable_spec.2.2.2.1 benignOps _ ⟨5, true⟩ (.pi 0)
      (by decide) (Or.inr rfl)
  · exact falsy_override_disable_spec.2.2.2.2.1 benignOps _ ⟨5, true⟩ (.pb false)
      (by decide) (Or.inl rfl)
  · exact falsy_override_disable_spec.2.2.2.2.2 benignOps _ ⟨5, true⟩ (.pi 0)
      (by decide) (Or.inr rfl)
